import Mathlib

/-!
Verification development for the `postdoc_scripts` repository.

This file shallowly embeds the two scripts that the verified properties are
about, `constrained_force_stats.py` and `pmf_analysis.py`, and proves (or
refutes) the stated properties of the specification against that embedding.

Modelling conventions:
- Python floats are modelled as exact rationals (`ℚ`).  The square root used
  by `np.std` and by root extraction is not rational-valued, so functions that
  need it take an abstract square-root function `sq : ℚ → ℚ` as a parameter;
  none of the proved properties depends on the value of `sq`.
- Text lines are modelled as `String`; a file is a `List String` of its lines.
- An uncaught Python exception (ValueError, IndexError, KeyError, TypeError)
  is modelled by `Except Unit`: `.error ()` means the script aborts.
-/

deriving instance DecidableEq for Except

/-! ### String helpers mirroring the Python primitives used by the scripts -/

/-- Membership test `pat in s` on Python strings (substring containment). -/
def strContains (s pat : String) : Bool :=
  (List.range (s.toList.length + 1)).any (fun i => pat.toList.isPrefixOf (s.toList.drop i))

/-- Helper for `pyTokens`: scans characters, `acc` holds the current token
reversed. -/
def tokensAux : List Char → List Char → List String
  | [], acc => if acc = [] then [] else [String.mk acc.reverse]
  | c :: cs, acc =>
    if c.isWhitespace then
      (if acc = [] then tokensAux cs [] else String.mk acc.reverse :: tokensAux cs [])
    else tokensAux cs (c :: acc)

/-- Python `str.split()` with no argument: split on runs of whitespace,
dropping empty tokens. -/
def pyTokens (s : String) : List String := tokensAux s.toList []

/-- Helper for `pySplitOn`: splits at every occurrence of `sep`, keeping empty
pieces, as Python `str.split(sep)` does. -/
def splitSepAux (sep : Char) : List Char → List Char → List String
  | [], acc => [String.mk acc.reverse]
  | c :: cs, acc =>
    if c = sep then String.mk acc.reverse :: splitSepAux sep cs []
    else splitSepAux sep cs (c :: acc)

/-- Python `str.split(sep)` for a one-character separator. -/
def pySplitOn (sep : Char) (s : String) : List String := splitSepAux sep s.toList []

/-- Python `str.strip()`: remove leading and trailing whitespace. -/
def pyStrip (s : String) : String :=
  String.mk (((s.toList.dropWhile Char.isWhitespace).reverse.dropWhile Char.isWhitespace).reverse)

/-- Numeric value of a digit character. -/
def digitVal (c : Char) : ℕ := c.toNat - 48

/-- Value of a digit run, most significant first. -/
def digitsToNat (ds : List Char) : ℕ := ds.foldl (fun a c => 10 * a + digitVal c) 0

/-- Splits off a leading run of decimal digits. -/
def takeDigits (cs : List Char) : List Char × List Char :=
  (cs.takeWhile Char.isDigit, cs.dropWhile Char.isDigit)

/-- Consumes an optional leading sign; returns whether it was `-`. -/
def parseSign : List Char → Bool × List Char
  | '-' :: cs => (true, cs)
  | '+' :: cs => (false, cs)
  | cs => (false, cs)

/-- Parses the optional exponent suffix of a float literal (must consume the
whole remaining input). -/
def parseExp : List Char → Option ℤ
  | [] => some 0
  | c :: cs =>
    if c = 'e' ∨ c = 'E' then
      match parseSign cs with
      | (neg, cs') =>
        match takeDigits cs' with
        | (ds, rest) =>
          if ds = [] ∨ rest ≠ [] then none
          else some (if neg then -(digitsToNat ds : ℤ) else (digitsToNat ds : ℤ))
    else none

/-- Core of `pyFloat?` on a character list: sign, integer part, optional
fractional part, optional exponent. -/
def pyFloatCore (cs : List Char) : Option ℚ :=
  match parseSign cs with
  | (neg, cs1) =>
    match takeDigits cs1 with
    | (ip, cs2) =>
      match cs2 with
      | '.' :: cs3 =>
        match takeDigits cs3 with
        | (fp, cs4) =>
          if ip = [] ∧ fp = [] then none
          else
            (parseExp cs4).map (fun e =>
              let mant : ℚ := (digitsToNat ip : ℚ) + (digitsToNat fp : ℚ) / (10 ^ fp.length)
              let v := mant * (10 : ℚ) ^ e
              if neg then -v else v)
      | _ =>
        if ip = [] then none
        else
          (parseExp cs2).map (fun e =>
            let v := (digitsToNat ip : ℚ) * (10 : ℚ) ^ e
            if neg then -v else v)

/-- Python `float(s)`: parses a decimal literal with optional sign, fraction
and exponent, after stripping surrounding whitespace.  Non-finite literals
(`inf`, `nan`), which have no rational value, are modelled as parse failures. -/
def pyFloat (s : String) : Option ℚ := pyFloatCore (pyStrip s).toList

/-- Python `int(s)`: optional sign followed by digits, after stripping. -/
def pyInt (s : String) : Option ℤ :=
  match parseSign (pyStrip s).toList with
  | (neg, cs) =>
    match takeDigits cs with
    | (ds, rest) =>
      if ds = [] ∨ rest ≠ [] then none
      else some (if neg then -(digitsToNat ds : ℤ) else (digitsToNat ds : ℤ))

/-! ### `constrained_force_stats.read_simulation_data`

Embedding of lines 13-33 of `constrained_force_stats.py`.  A REPORT file is a
list of lines.  A line containing `"b_m"` contributes `float(line.split()[1])`
with any failure (IndexError or ValueError) uncaught; a line containing
`"cc>"` contributes `float(line.split()[2])` where only the ValueError of the
float conversion is caught (the sample is dropped), while a missing third
token raises an uncaught IndexError; a line containing `"MD step No."`
increments the step counter and, when a bound is configured and reached,
stops the scan. -/

/-- Contribution of one line to the bias sequence: `none` means no `b_m`
marker, `.error` models the uncaught IndexError/ValueError. -/
def lineLambda (l : String) : Except Unit (Option ℚ) :=
  if strContains l "b_m" then
    match (pyTokens l).get? 1 with
    | none => .error ()
    | some t =>
      match pyFloat t with
      | none => .error ()
      | some v => .ok (some v)
  else .ok none

/-- Contribution of one line to the force sequence: a missing third token is
an uncaught IndexError, a failed float conversion is caught and drops the
sample. -/
def lineForce (l : String) : Except Unit (Option ℚ) :=
  if strContains l "cc>" then
    match (pyTokens l).get? 2 with
    | none => .error ()
    | some t => .ok (pyFloat t)
  else .ok none

/-- The break condition `max_steps is not None and md_steps >= max_steps`. -/
def stopAt : Option ℕ → ℕ → Bool
  | none, _ => false
  | some b, m => b ≤ m

/-- The line scan of `read_simulation_data`, with the current step count as
accumulator. -/
def rsdGo (maxSteps : Option ℕ) (mdSteps : ℕ) : List String → Except Unit (List ℚ × List ℚ × ℕ)
  | [] => .ok ([], [], mdSteps)
  | l :: rest =>
    match lineLambda l with
    | .error e => .error e
    | .ok lv =>
      match lineForce l with
      | .error e => .error e
      | .ok fv =>
        let isMD := strContains l "MD step No."
        let md' := if isMD then mdSteps + 1 else mdSteps
        if isMD && stopAt maxSteps md' then .ok (lv.toList, fv.toList, md')
        else
          match rsdGo maxSteps md' rest with
          | .error e => .error e
          | .ok (ls, fs, n) => .ok (lv.toList ++ ls, fv.toList ++ fs, n)

/-- `read_simulation_data` over the lines of one REPORT file: returns the
bias values, the force values and the MD step count, or aborts on an uncaught
exception. -/
def read_simulation_data (lines : List String) (maxSteps : Option ℕ) :
    Except Unit (List ℚ × List ℚ × ℕ) :=
  rsdGo maxSteps 0 lines

/-- Number of lines of a file carrying a given marker. -/
def countMarker (pat : String) (lines : List String) : ℕ :=
  lines.countP (fun l => strContains l pat)

/-- Number of `"cc>"` lines whose third whitespace token exists but does not
parse as a float (the dropped samples). -/
def countBadCC (lines : List String) : ℕ :=
  lines.countP (fun l =>
    strContains l "cc>" && (((pyTokens l).get? 2).bind pyFloat).isNone)

/-- Shortest prefix of the file containing `b` lines with the `"MD step No."`
marker (the whole file if it has fewer). -/
def truncAtMD (b : ℕ) : List String → List String
  | [] => []
  | l :: rest =>
    if strContains l "MD step No." then
      if b ≤ 1 then [l] else l :: truncAtMD (b - 1) rest
    else l :: truncAtMD b rest

/-! ### `constrained_force_stats` statistics and report writing -/

/-- `np.mean` over a rational list (mean of the empty list, `nan` in numpy,
is irrelevant here and falls back to `0` by rational division by zero). -/
def npMean (l : List ℚ) : ℚ := l.sum / l.length

/-- Population variance, the quantity under the square root of `np.std`. -/
def npVar (l : List ℚ) : ℚ := npMean (l.map (fun v => (v - npMean l) ^ 2))

/-- `np.std` (population standard deviation), abstracting the square root. -/
def npStd (sq : ℚ → ℚ) (l : List ℚ) : ℚ := sq (npVar l)

/-- Python `range(start, stop, step)` for a positive step. -/
def pyRange (start stop step : ℕ) : List ℕ :=
  (List.range ((stop - start + step - 1) / step)).map (fun j => start + j * step)

/-- `cumulative_force_analysis` (lines 40-52 of `constrained_force_stats.py`):
for a series of at least 500 samples, the loop over `range(500, total+1, 500)`
collects the cutoff, the mean of the prefix `force_values[:i]` and its
standard deviation; otherwise all three lists stay empty. -/
def cumulative_force_analysis (sq : ℚ → ℚ) (force_values : List ℚ) :
    List ℕ × List ℚ × List ℚ :=
  let total := force_values.length
  if 500 ≤ total then
    let ivals := pyRange 500 (total + 1) 500
    (ivals,
     ivals.map (fun i => npMean (force_values.take i)),
     ivals.map (fun i => npStd sq (force_values.take i)))
  else ([], [], [])

/-- Rounding of a rational to an integer, halves to the even neighbour; this
is the tie rule of `np.around` and of float formatting (ties of the decimal
representation of an exact binary double are modelled as exact-rational
ties). -/
def roundHalfEven (q : ℚ) : ℤ :=
  let f := ⌊q⌋
  if q - f < 1/2 then f
  else if 1/2 < q - f then f + 1
  else if f % 2 = 0 then f else f + 1

/-- Left-pads the decimal digits of `r` with zeros to `prec` digits. -/
def padZeros (prec : ℕ) (r : ℕ) : String :=
  String.mk (List.replicate (prec - (toString r).length) '0') ++ toString r

/-- Python fixed-point formatting `f'{x:.prec f}'` of a (rational-modelled)
float. -/
def pyFormat (prec : ℕ) (x : ℚ) : String :=
  let n := roundHalfEven (x * 10 ^ prec)
  (if n < 0 then "-" else "") ++ toString (n.natAbs / 10 ^ prec) ++ "." ++ padZeros prec (n.natAbs % 10 ^ prec)

/-- Right alignment `f'{s:>w}'`: pad with spaces on the left up to width `w`. -/
def rjust (w : ℕ) (s : String) : String :=
  String.mk (List.replicate (w - s.toList.length) ' ') ++ s

/-- The lines written to `force_stats_report.txt` (lines 82-93 of
`constrained_force_stats.py`): header line, CV, mean force, standard
deviation, MD steps, cumulative-analysis title, column header, then one
right-aligned row per cumulative triple. -/
def reportLines (ci nc : ℕ) (cv0 mf sd : ℚ) (steps : ℕ)
    (ivals : List ℕ) (means stds : List ℚ) : List String :=
  ["Integrating over Reaction Coordinate Index: " ++ toString ci ++
     ", with a total of " ++ toString nc ++ " constraints",
   "CV: " ++ pyFormat 2 cv0,
   "Mean Force: " ++ pyFormat 2 mf,
   "Standard Deviation: " ++ pyFormat 2 sd,
   "MD steps: " ++ toString steps,
   "Cumulative Analysis Results:",
   rjust 10 "Interval" ++ rjust 20 "Cumulative Mean" ++ rjust 20 "Cumulative Std"]
  ++ (ivals.zip (means.zip stds)).map (fun p =>
       rjust 10 (toString p.1) ++ rjust 20 (pyFormat 2 p.2.1) ++ rjust 20 (pyFormat 2 p.2.2))

/-! ### De-interleaving (line 78 of `constrained_force_stats.py`) -/

/-- Every `n`-th element of a list starting at its head, as extended Python
slicing `l[::n]` collects it for a positive step `n`. -/
def everyNth (n : ℕ) : List ℚ → List ℚ
  | [] => []
  | a :: l => a :: everyNth n (l.drop (n - 1))
termination_by l => l.length
decreasing_by simp; omega

/-- Python slicing `l[k::n]`: every `n`-th element starting at index `k`,
as in `all_lambda_values[constraint_index::num_constraints]`. -/
def pySlice (l : List ℚ) (k n : ℕ) : List ℚ := everyNth n (l.drop k)

/-- Modelled from the spec: round-robin interleaving of `ss.length` series
whose common length is the fuel argument; one round takes the heads of all
series, then the remaining rounds interleave the tails.  This is the
spec-side construction that de-interleaving is claimed to invert. -/
def interleaveRR : ℕ → List (List ℚ) → List ℚ
  | 0, _ => []
  | l + 1, ss => ss.filterMap List.head? ++ interleaveRR l (ss.map List.tail)

/-! ### `pmf_analysis.read_force_stats` and the directory scan -/

/-- `np.around(x, 2)`: round to two decimals, halves to even. -/
def npAround2 (x : ℚ) : ℚ := (roundHalfEven (x * 100) : ℚ) / 100

/-- The partial dictionary built by `read_force_stats`; an absent key is
`none`. -/
structure ForceStats where
  cv : Option ℚ
  meanForce : Option ℚ
  stdDev : Option ℚ
  mdSteps : Option ℤ
deriving DecidableEq

/-- The empty dictionary `stats = {}`. -/
def ForceStats.empty : ForceStats := ⟨none, none, none, none⟩

/-- Evaluation of `float(line.split(':')[1].strip())`: `none` models the
uncaught IndexError (no colon) or ValueError (bad literal). -/
def parseAfterColon (l : String) : Option ℚ :=
  ((pySplitOn ':' l).get? 1).bind (fun t => pyFloat (pyStrip t))

/-- Evaluation of `int(line.split(':')[1].strip())`. -/
def parseAfterColonInt (l : String) : Option ℤ :=
  ((pySplitOn ':' l).get? 1).bind (fun t => pyInt (pyStrip t))

/-- The loop of `read_force_stats` over `lines[6:]`: a line splitting into
exactly three tokens has its first token converted by `int` (an uncaught
ValueError if it is not an integer literal); when it equals the requested
step target the row overwrites the dictionary entries, with the two `float`
conversions again fatal on failure. -/
def rfsLoop (target : Option ℤ) (st : ForceStats) : List String → Except Unit ForceStats
  | [] => .ok st
  | l :: rest =>
    let parts := pyTokens l
    if parts.length = 3 then
      match pyInt (parts.getD 0 "") with
      | none => .error ()
      | some k =>
        match target with
        | none => rfsLoop target st rest
        | some t =>
          if k = t then
            match pyFloat (parts.getD 1 ""), pyFloat (parts.getD 2 "") with
            | some mf, some sd =>
                rfsLoop target { st with meanForce := some (-mf), stdDev := some sd, mdSteps := some t } rest
            | _, _ => .error ()
          else rfsLoop target st rest
    else rfsLoop target st rest

/-- `read_force_stats` (lines 18-39 of `pmf_analysis.py`): on a file of more
than two lines it parses `CV` from line 2, and - only when no step target is
requested - the negated rounded mean force, the standard deviation and the
step count from lines 3-5, then scans `lines[6:]` for a cumulative row
matching the target; a file of at most two lines yields the empty
dictionary. -/
def read_force_stats (lines : List String) (target : Option ℤ) : Except Unit ForceStats :=
  if 2 < lines.length then
    match parseAfterColon (lines.getD 1 "") with
    | none => .error ()
    | some cv =>
      let st1 : ForceStats := { ForceStats.empty with cv := some cv }
      match target with
      | none =>
        match parseAfterColon (lines.getD 2 ""), parseAfterColon (lines.getD 3 ""),
              parseAfterColonInt (lines.getD 4 "") with
        | some mf, some sd, some md =>
          rfsLoop target
            { st1 with meanForce := some (-(npAround2 mf)), stdDev := some sd, mdSteps := some md }
            (lines.drop 6)
        | _, _, _ => .error ()
      | some _ => rfsLoop target st1 (lines.drop 6)
  else .ok ForceStats.empty

/-- Dictionary lookup `stats[key]`: a missing key raises KeyError. -/
def getKey (o : Option ℚ) : Except Unit ℚ :=
  match o with
  | some v => .ok v
  | none => .error ()

/-- Dictionary lookup for the integer-valued step entry. -/
def getKeyInt (o : Option ℤ) : Except Unit ℤ :=
  match o with
  | some v => .ok v
  | none => .error ()

/-- The directory scan of `pmf_analysis.py` (lines 84-91): each scanned
directory either has no report file (`none`, skipped by the `os.path.isfile`
guard) or has one with the given lines; for an existing report the four
columns receive the parsed entries, a missing entry raising KeyError.  The
four accumulated columns are returned, or the uncaught exception that ends
the scan. -/
def pmfScan (folders : List (Option (List String))) (target : Option ℤ) :
    Except Unit (List ℚ × List ℚ × List ℚ × List ℤ) :=
  match folders with
  | [] => .ok ([], [], [], [])
  | none :: rest => pmfScan rest target
  | some lines :: rest =>
    match read_force_stats lines target with
    | .error e => .error e
    | .ok st =>
      match getKey st.cv with
      | .error e => .error e
      | .ok cv =>
        match getKey st.meanForce with
        | .error e => .error e
        | .ok mf =>
          match getKey st.stdDev with
          | .error e => .error e
          | .ok sd =>
            match getKeyInt st.mdSteps with
            | .error e => .error e
            | .ok md =>
              match pmfScan rest target with
              | .error e => .error e
              | .ok (cvs, mfs, sds, mds) => .ok (cv :: cvs, mf :: mfs, sd :: sds, md :: mds)

/-! ### `pmf_analysis.calculate_area` -/

/-- `np.sign` of one value. -/
def npSign (q : ℚ) : ℤ := if q < 0 then -1 else if q = 0 then 0 else 1

/-- Helper for `zeroCrossings`: walks consecutive sample pairs, `i` being the
index of the first element of the current pair. -/
def zeroCrossingsAux (i : ℕ) : List ℚ → List ℕ
  | a :: b :: rest =>
    (if npSign b ≠ npSign a then [i] else []) ++ zeroCrossingsAux (i + 1) (b :: rest)
  | _ => []

/-- `np.where(np.diff(np.sign(y)))[0]`: the indices `i` with
`sign y[i+1] ≠ sign y[i]`, in ascending order. -/
def zeroCrossings (y : List ℚ) : List ℕ := zeroCrossingsAux 0 y

/-- The local linear interpolation of the zero position between two bracketing
samples. -/
def interpolateZeroCrossing (x1 y1 x2 y2 : ℚ) : ℚ := x1 - y1 * (x2 - x1) / (y2 - y1)

/-- `np.argmin`: index of the first minimal element (0 for the empty array,
which never occurs here). -/
def npArgmin (l : List ℚ) : ℕ :=
  (l.foldl
    (fun acc v => if v < acc.2.1 then (acc.2.2, v, acc.2.2 + 1) else (acc.1, acc.2.1, acc.2.2 + 1))
    ((0 : ℕ), l.headI, (0 : ℕ))).1

/-- Python slicing `l[a:b]` for nonnegative bounds. -/
def pySliceRange (l : List ℚ) (a b : ℕ) : List ℚ := (l.drop a).take (b - a)

/-- `np.trapz(y, x)`: the trapezoidal sum over consecutive sample pairs
(`x` and `y` always have equal length at every call site). -/
def npTrapz : List ℚ → List ℚ → ℚ
  | y0 :: y1 :: ys, x0 :: x1 :: xs => (x1 - x0) * (y0 + y1) / 2 + npTrapz (y1 :: ys) (x1 :: xs)
  | _, _ => 0

/-- Determinant of a 3 × 3 matrix given row-wise. -/
def det3 (a b c d e f g h i : ℚ) : ℚ :=
  a * (e * i - f * h) - b * (d * i - f * g) + c * (d * h - e * g)

/-- `np.polyfit(x, y, 2)`: the least-squares quadratic through the samples,
solved exactly through the normal equations by Cramer's rule (high
coefficient first).  A rank-deficient system, which numpy resolves through an
SVD-based least-squares solve, is outside the rational model and mapped to
the zero polynomial; no proved property evaluates that case. -/
def npPolyfit2 (x y : List ℚ) : ℚ × ℚ × ℚ :=
  let n : ℚ := x.length
  let s1 := x.sum
  let s2 := (x.map (fun v => v ^ 2)).sum
  let s3 := (x.map (fun v => v ^ 3)).sum
  let s4 := (x.map (fun v => v ^ 4)).sum
  let t0 := y.sum
  let t1 := ((x.zip y).map (fun p => p.1 * p.2)).sum
  let t2 := ((x.zip y).map (fun p => p.1 ^ 2 * p.2)).sum
  let d := det3 s4 s3 s2 s3 s2 s1 s2 s1 n
  if d = 0 then (0, 0, 0)
  else (det3 t2 s3 s2 t1 s2 s1 t0 s1 n / d,
        det3 s4 t2 s2 s3 t1 s1 s2 t0 n / d,
        det3 s4 s3 t2 s3 s2 t1 s2 s1 t0 / d)

/-- `np.poly1d` drops leading zero coefficients. -/
def stripLeadingZeros : List ℚ → List ℚ
  | [] => []
  | a :: rest => if a = 0 then stripLeadingZeros rest else a :: rest

/-- `np.roots(p).real` on the stripped coefficients: both real roots of a
genuine quadratic (through the abstract square root of the discriminant), the
shared real part of a complex-conjugate pair when the discriminant is
negative, the single root of a linear polynomial, and nothing below degree
one. -/
def npRootsReal (sq : ℚ → ℚ) (coeffs : List ℚ) : List ℚ :=
  match stripLeadingZeros coeffs with
  | [a, b, c] =>
    let disc := b ^ 2 - 4 * a * c
    if disc < 0 then [-b / (2 * a), -b / (2 * a)]
    else [(-b - sq disc) / (2 * a), (-b + sq disc) / (2 * a)]
  | [b, c] => [-c / b]
  | _ => []

/-- `np.linspace(a, b, num)`. -/
def npLinspace (a b : ℚ) (num : ℕ) : List ℚ :=
  (List.range num).map (fun i : ℕ => a + (b - a) * (i : ℚ) / ((num : ℚ) - 1))

/-- Evaluation of a polynomial given by high-first coefficients. -/
def polyEval (coeffs : List ℚ) (v : ℚ) : ℚ := coeffs.foldl (fun acc c => acc * v + c) 0

/-- The fallback integration of `calculate_area` (lines 55-62 of
`pmf_analysis.py`): evaluate the fitted polynomial on a 500-point grid
between the two retained roots and integrate the trapezoidal sum between the
grid points closest to them. -/
def fallbackArea (coeffs : List ℚ) (zc0 zc1 : ℚ) : ℚ :=
  let xInt := npLinspace (min zc0 zc1) (max zc0 zc1) 500
  let yInt := xInt.map (polyEval coeffs)
  let s := npArgmin (xInt.map (fun v => |v - zc0|))
  let e := npArgmin (xInt.map (fun v => |v - zc1|))
  |npTrapz (pySliceRange yInt s (e + 1)) (pySliceRange xInt s (e + 1))|

/-- The direct integration of `calculate_area` (lines 64-74 of
`pmf_analysis.py`) between the sign changes at indices `s` and `e`: the two
interpolated roots, then the trapezoidal sum of the raw samples between the
sample indices closest to them; returns the area and the root list. -/
def directAreaRoots (x y : List ℚ) (s e : ℕ) : ℚ × List ℚ :=
  let r0 := interpolateZeroCrossing (x.getD s 0) (y.getD s 0) (x.getD (s + 1) 0) (y.getD (s + 1) 0)
  let r1 := interpolateZeroCrossing (x.getD e 0) (y.getD e 0) (x.getD (e + 1) 0) (y.getD (e + 1) 0)
  let si := npArgmin (x.map (fun v => |v - r0|))
  let ei := npArgmin (x.map (fun v => |v - r1|))
  (|npTrapz (pySliceRange y si (ei + 1)) (pySliceRange x si (ei + 1))|, [r0, r1])

/-- The sorted fallback root list of `calculate_area`. -/
def fallbackRoots (sq : ℚ → ℚ) (x y : List ℚ) : List ℚ :=
  match npPolyfit2 x y with
  | (a, b, c) => (npRootsReal sq [a, b, c]).insertionSort (· ≤ ·)

/-- `calculate_area` (lines 42-76 of `pmf_analysis.py`): with fewer than two
sign changes, fit a quadratic and take its first two (sorted) returned roots
when available, else return no area; with at least two sign changes,
integrate directly between the first two of the sorted sign-change indices. -/
def calculate_area (sq : ℚ → ℚ) (x y : List ℚ) : Option ℚ × List ℚ :=
  let zc := zeroCrossings y
  if zc.length < 2 then
    match npPolyfit2 x y with
    | (a, b, c) =>
      match fallbackRoots sq x y with
      | r0 :: r1 :: rest => (some (fallbackArea [a, b, c] r0 r1), r0 :: r1 :: rest)
      | roots => (none, roots)
  else
    match zc.insertionSort (· ≤ ·) with
    | s :: e :: _ => (some (directAreaRoots x y s e).1, (directAreaRoots x y s e).2)
    | _ => (none, [])

/-! ### The activation-barrier results of `pmf_analysis.py` (lines 104-119) -/

/-- Pointwise `y + std_dev` on equal-length numpy arrays. -/
def listAdd (a b : List ℚ) : List ℚ := List.zipWith (· + ·) a b

/-- Pointwise `y - std_dev`. -/
def listSub (a b : List ℚ) : List ℚ := List.zipWith (· - ·) a b

/-- `activation_barrier_error` (line 112): half the absolute difference of
the areas of the `+std` and `-std` shifted curves, defined whenever both
areas exist. -/
def activationBarrierError (sq : ℚ → ℚ) (x y sd : List ℚ) : Option ℚ :=
  match (calculate_area sq x (listAdd y sd)).1, (calculate_area sq x (listSub y sd)).1 with
  | some u, some l => some (|u - l| / 2)
  | _, _ => none

/-- `results_string` (lines 105-119): the numeric barrier line when both
shifted areas exist (formatting `None` raises an uncaught TypeError when the
unshifted area is missing), the insufficient-data message otherwise; the
equilibrium-distance line is appended whenever the unshifted root list has at
least two entries. -/
def resultsString (sq : ℚ → ℚ) (x y sd : List ℚ) : Except Unit String :=
  let ab := (calculate_area sq x y).1
  let roots := (calculate_area sq x y).2
  let base : Except Unit String :=
    match (calculate_area sq x (listAdd y sd)).1, (calculate_area sq x (listSub y sd)).1 with
    | some u, some l =>
      match ab with
      | some a =>
        .ok ("Activation Barrier (Area under the curve): " ++ pyFormat 2 a ++ " ± " ++
             pyFormat 2 (|u - l| / 2) ++ " eV\n")
      | none => .error ()
    | _, _ => .ok "Not enough zero crossings found to compute the area and its error."
  match base with
  | .error e => .error e
  | .ok s =>
    .ok (if 2 ≤ roots.length then
           s ++ "Equilibrium Bond Distances: Initial State = " ++ pyFormat 3 (roots.getD 0 0) ++
             " Å, Transition State = " ++ pyFormat 3 (roots.getD 1 0) ++ " Å\n"
         else s)

/-! ### General lemmas -/

/-- Auxiliary: `get?` after `drop`. -/
theorem get?_drop' (l : List ℚ) (n m : ℕ) : (l.drop n).get? m = l.get? (n + m) := by
  simp [List.get?_eq_getElem?, List.getElem?_drop]

/-- Indexing into `everyNth`: element `j` of every-`n`-th is element `j * n`
of the original list. -/
theorem everyNth_get? (n : ℕ) (hn : 1 ≤ n) :
    ∀ (j : ℕ) (l : List ℚ), (everyNth n l).get? j = l.get? (j * n) := by
  intro j
  induction j with
  | zero =>
    intro l
    cases l with
    | nil => simp [everyNth]
    | cons a l => simp [everyNth]
  | succ j ih =>
    intro l
    cases l with
    | nil => simp [everyNth]
    | cons a l =>
      obtain ⟨m, rfl⟩ : ∃ m, n = m + 1 := ⟨n - 1, by omega⟩
      have h1 : (everyNth (m + 1) (a :: l)).get? (j + 1)
          = (everyNth (m + 1) (l.drop m)).get? j := by
        simp [everyNth]
      rw [h1, ih (l.drop m), get?_drop']
      have h2 : (j + 1) * (m + 1) = (m + j * (m + 1)) + 1 := by ring
      rw [h2, List.get?_cons_succ]

/-- `interleaveRR` of an empty series list is empty. -/
theorem interleaveRR_nil : ∀ L, interleaveRR L [] = [] := by
  intro L
  induction L with
  | zero => rfl
  | succ L ih => simp [interleaveRR, ih]

/-- On a list of nonempty lists, `filterMap head?` is `map headI`. -/
theorem filterMap_head?_eq_map (ss : List (List ℚ)) (h : ∀ s ∈ ss, s ≠ []) :
    ss.filterMap List.head? = ss.map List.headI := by
  induction ss with
  | nil => rfl
  | cons s ss ih =>
    have hs : s ≠ [] := h s (by simp)
    cases s with
    | nil => exact absurd rfl hs
    | cons a t =>
      simp only [List.filterMap_cons, List.head?, List.map_cons, List.headI]
      rw [ih (fun s hmem => h s (by simp [hmem]))]

/-- Indexing into a round-robin interleaving of equal-length series: element
`m` is element `m / N` of series `m % N`. -/
theorem interleaveRR_get? :
    ∀ (L : ℕ) (ss : List (List ℚ)), (∀ s ∈ ss, s.length = L) →
      ∀ m, (interleaveRR L ss).get? m
        = (ss.get? (m % ss.length)).bind (fun s => s.get? (m / ss.length)) := by
  intro L
  induction L with
  | zero =>
    intro ss h m
    simp only [interleaveRR]
    cases hsm : ss.get? (m % ss.length) with
    | none => simp [hsm]
    | some s =>
      have hmem : s ∈ ss := List.get?_mem hsm
      have hlen : s.length = 0 := h s hmem
      have : s = [] := List.length_eq_zero.mp hlen
      simp [hsm, this]
  | succ L ih =>
    intro ss h m
    rcases eq_or_ne ss [] with rfl | hssne
    · simp [interleaveRR_nil]
    have hN : 0 < ss.length := List.length_pos.mpr hssne
    have hne : ∀ s ∈ ss, s ≠ [] := by
      intro s hs hnil
      have := h s hs
      rw [hnil] at this
      simp at this
    have hheads : ss.filterMap List.head? = ss.map List.headI := filterMap_head?_eq_map ss hne
    show (ss.filterMap List.head? ++ interleaveRR L (ss.map List.tail)).get? m = _
    rw [hheads]
    by_cases hm : m < ss.length
    · rw [List.get?_append (by simpa using hm)]
      rw [Nat.mod_eq_of_lt hm, Nat.div_eq_of_lt hm, List.get?_map]
      cases hsm : ss.get? m with
      | none => rfl
      | some s =>
        rcases s with _ | ⟨a, t⟩
        · exact absurd rfl (hne _ (List.get?_mem hsm))
        · rfl
    · push_neg at hm
      obtain ⟨k, rfl⟩ : ∃ k, m = ss.length + k := ⟨m - ss.length, by omega⟩
      have hlen' : ∀ s ∈ ss.map List.tail, s.length = L := by
        intro s hs
        obtain ⟨t, ht, rfl⟩ := List.mem_map.mp hs
        have := h t ht
        simp [List.length_tail, this]
      have hrec := ih (ss.map List.tail) hlen' k
      rw [List.length_map] at hrec
      have happ : (List.map List.headI ss ++ interleaveRR L (List.map List.tail ss)).get?
            (ss.length + k)
          = (interleaveRR L (List.map List.tail ss)).get? k := by
        rw [List.get?_append_right (by simp)]
        congr 1
        simp
      rw [happ, hrec, Nat.add_mod_left, Nat.add_div_left _ hN, List.get?_map]
      cases hsm : ss.get? (k % ss.length) with
      | none => rfl
      | some s =>
        rcases s with _ | ⟨a, t⟩
        · exact absurd rfl (hne _ (List.get?_mem hsm))
        · rfl

/-- The sign-change index list is bounded below by its start index and sorted. -/
theorem zeroCrossingsAux_bound_sorted :
    ∀ (l : List ℚ) (i : ℕ),
      (∀ j ∈ zeroCrossingsAux i l, i ≤ j) ∧ List.Sorted (· ≤ ·) (zeroCrossingsAux i l)
  | [], _ => by simp [zeroCrossingsAux]
  | [a], _ => by simp [zeroCrossingsAux]
  | a :: b :: rest, i => by
    obtain ⟨hb, hs⟩ := zeroCrossingsAux_bound_sorted (b :: rest) (i + 1)
    by_cases hc : npSign b ≠ npSign a
    · simp only [zeroCrossingsAux, if_pos hc, List.singleton_append]
      refine ⟨?_, List.sorted_cons.mpr ⟨fun x hx => by have := hb x hx; omega, hs⟩⟩
      intro j hj
      rcases List.mem_cons.mp hj with rfl | hj
      · omega
      · have := hb j hj; omega
    · simp only [zeroCrossingsAux, if_neg hc, List.nil_append]
      exact ⟨fun j hj => by have := hb j hj; omega, hs⟩

/-- The sign-change indices of `calculate_area` come out ascending, so the
sort of the code leaves them unchanged. -/
theorem zeroCrossings_sorted (y : List ℚ) : List.Sorted (· ≤ ·) (zeroCrossings y) :=
  (zeroCrossingsAux_bound_sorted y 0).2

/-! ### Claim C1 -/

/-- Claim C1 (confirmed): de-interleaving is a right inverse of round-robin
interleaving: when `N` series of equal length `L` are interleaved round-robin
into one sequence, the slice `seq[k::N]` (as taken by the aggregator at
line 78 of `constrained_force_stats.py`) returns exactly the original `k`-th
series, for every `k < N`. -/
theorem C1_deinterleave_right_inverse (ss : List (List ℚ)) (N L k : ℕ)
    (hN : ss.length = N) (hL : ∀ s ∈ ss, s.length = L) (hk : k < N) :
    pySlice (interleaveRR L ss) k N = ss.getD k [] := by
  subst hN
  have hN1 : 1 ≤ ss.length := by omega
  apply List.ext
  intro j
  rw [pySlice, everyNth_get? _ hN1, get?_drop', interleaveRR_get? L ss hL]
  have h1 : (k + j * ss.length) % ss.length = k := by
    rw [Nat.add_mul_mod_self_right, Nat.mod_eq_of_lt hk]
  have h2 : (k + j * ss.length) / ss.length = j := by
    rw [Nat.add_mul_div_right _ _ (by omega : 0 < ss.length), Nat.div_eq_of_lt hk]
    omega
  rw [h1, h2]
  cases hsm : ss.get? k with
  | none => exact absurd (List.get?_eq_none.mp hsm) (by omega)
  | some s =>
    have : ss.getD k [] = s := by
      rw [List.getD_eq_get?, hsm]
      rfl
    rw [this]
    rfl

/-- Witness for C1 at two series of length two. -/
theorem C1_deinterleave_right_inverse_witness :
    pySlice (interleaveRR 2 [[1, 2], [3, 4]]) 1 2 = [[(1 : ℚ), 2], [3, 4]].getD 1 [] :=
  C1_deinterleave_right_inverse [[1, 2], [3, 4]] 2 2 1 (by decide) (by decide) (by decide)



/-! ### Lemmas about the REPORT scan -/

/-- Dropped samples are a subset of the `cc>` lines. -/
theorem countBadCC_le (lines : List String) :
    countBadCC lines ≤ countMarker "cc>" lines := by
  refine List.countP_mono_left ?_
  intro l _ h
  cases hc : strContains l "cc>" with
  | false => rw [hc] at h; simp at h
  | true => rfl

/-- One `cons` step of a marker count. -/
theorem countMarker_cons (pat l : String) (rest : List String) :
    countMarker pat (l :: rest)
      = countMarker pat rest + (if strContains l pat then 1 else 0) := by
  simp [countMarker, List.countP_cons]

/-- One `cons` step of the dropped-sample count. -/
theorem countBadCC_cons (l : String) (rest : List String) :
    countBadCC (l :: rest)
      = countBadCC rest
        + (if strContains l "cc>" && (((pyTokens l).get? 2).bind pyFloat).isNone then 1 else 0) := by
  simp [countBadCC, List.countP_cons]

/-- Case analysis of a non-raising force contribution. -/
theorem lineForce_ok_cases (l : String) (fv : Option ℚ) (h : lineForce l = .ok fv) :
    (strContains l "cc>" = false ∧ fv = none)
    ∨ ∃ t, strContains l "cc>" = true ∧ (pyTokens l).get? 2 = some t ∧ fv = pyFloat t := by
  rw [lineForce] at h
  cases hc : strContains l "cc>" with
  | false =>
    rw [hc] at h
    simp only [Bool.false_eq_true, if_false] at h
    injection h with h
    exact Or.inl ⟨rfl, h.symm⟩
  | true =>
    rw [hc] at h
    simp only [if_true] at h
    cases ht : (pyTokens l).get? 2 with
    | none => rw [ht] at h; exact absurd h (by simp)
    | some t =>
      rw [ht] at h
      injection h with h
      exact Or.inr ⟨t, rfl, rfl, h.symm⟩

/-- With no step bound, a successful scan returns one force sample per `cc>`
line except the dropped ones, and counts every `MD step No.` line on top of
the incoming accumulator. -/
theorem rsdGo_none_spec :
    ∀ (lines : List String) (m : ℕ) (ls fs : List ℚ) (n : ℕ),
      rsdGo none m lines = .ok (ls, fs, n) →
      fs.length = countMarker "cc>" lines - countBadCC lines
        ∧ n = m + countMarker "MD step No." lines := by
  intro lines
  induction lines with
  | nil =>
    intro m ls fs n h
    simp only [rsdGo, Except.ok.injEq, Prod.mk.injEq] at h
    obtain ⟨-, h2, h3⟩ := h
    simp [countMarker, countBadCC, ← h2, ← h3]
  | cons l rest ih =>
    intro m ls fs n h
    cases hll : lineLambda l with
    | error e =>
      simp only [rsdGo, hll] at h
      exact absurd h (by simp)
    | ok lv =>
      cases hlf : lineForce l with
      | error e =>
        simp only [rsdGo, hll, hlf] at h
        exact absurd h (by simp)
      | ok fv =>
        cases hrec : rsdGo none (if strContains l "MD step No." = true then m + 1 else m) rest with
        | error e =>
          simp only [rsdGo, stopAt, Bool.and_false, Bool.false_eq_true, ite_false,
            hll, hlf, hrec] at h
          exact absurd h (by simp)
        | ok r =>
          obtain ⟨ls', fs', n'⟩ := r
          simp only [rsdGo, stopAt, Bool.and_false, Bool.false_eq_true, ite_false,
            hll, hlf, hrec, Except.ok.injEq, Prod.mk.injEq] at h
          obtain ⟨-, h2, h3⟩ := h
          obtain ⟨hlen, hn⟩ := ih _ _ _ _ hrec
          have hle := countBadCC_le rest
          rw [countMarker_cons, countMarker_cons, countBadCC_cons]
          constructor
          · rw [← h2, List.length_append, hlen]
            rcases lineForce_ok_cases l fv hlf with ⟨hcc, rfl⟩ | ⟨t, hcc, ht, rfl⟩
            · rw [hcc]
              simp only [Bool.false_eq_true, if_false, Bool.false_and]
              simp only [Option.toList_none, List.length_nil]
              omega
            · rw [hcc, ht]
              cases hv : pyFloat t with
              | none =>
                simp only [Option.some_bind, hv, Option.isNone_none, Bool.true_and,
                  if_true, Option.toList_none, List.length_nil]
                omega
              | some v =>
                simp only [Option.some_bind, hv, Option.isNone_some, Bool.true_and,
                  Bool.false_eq_true, if_false, if_true, Option.toList_some,
                  List.length_cons, List.length_nil]
                omega
          · rw [← h3, hn]
            by_cases hmd : strContains l "MD step No." = true
            · rw [hmd]
              simp only [if_true, ite_true]
              omega
            · rw [Bool.eq_false_iff.mpr hmd]
              simp only [Bool.false_eq_true, if_false, ite_false]
              omega

/-- A bounded scan equals the unbounded scan of the truncated file, while the
bound still exceeds the accumulator. -/
theorem rsdGo_some_eq_trunc :
    ∀ (lines : List String) (b m : ℕ), m < b →
      rsdGo (some b) m lines = rsdGo none m (truncAtMD (b - m) lines) := by
  intro lines
  induction lines with
  | nil => intro b m _; simp [truncAtMD, rsdGo]
  | cons l rest ih =>
    intro b m hm
    by_cases hmd : strContains l "MD step No." = true
    · by_cases hb : b = m + 1
      · subst hb
        have ht : truncAtMD (m + 1 - m) (l :: rest) = [l] := by
          rw [truncAtMD, if_pos hmd, if_pos (by omega)]
        rw [ht]
        simp only [rsdGo, hmd, stopAt, if_true, ite_true, Bool.and_true, Bool.and_false,
          Bool.false_eq_true, ite_false, decide_eq_true_eq]
        cases lineLambda l with
        | error e => rfl
        | ok lv =>
          cases lineForce l with
          | error e => rfl
          | ok fv =>
            have : (m + 1 ≤ m + 1) = True := by simp
            simp [this]
      · have hlt : m + 1 < b := by omega
        have ht : truncAtMD (b - m) (l :: rest) = l :: truncAtMD (b - m - 1) rest := by
          rw [truncAtMD, if_pos hmd, if_neg (by omega)]
        rw [ht]
        simp only [rsdGo, hmd, stopAt, if_true, ite_true]
        cases lineLambda l with
        | error e => rfl
        | ok lv =>
          cases lineForce l with
          | error e => rfl
          | ok fv =>
            have hcond : (b ≤ m + 1) = False := by simp; omega
            simp only [hcond, decide_False, Bool.and_false, Bool.false_eq_true, ite_false,
              Bool.and_true]
            have := ih b (m + 1) hlt
            rw [show b - (m + 1) = b - m - 1 by omega] at this
            rw [this]
    · have hmd' : strContains l "MD step No." = false := Bool.eq_false_iff.mpr hmd
      have ht : truncAtMD (b - m) (l :: rest) = l :: truncAtMD (b - m) rest := by
        rw [truncAtMD, if_neg (by simp [hmd'])]
      rw [ht]
      simp only [rsdGo, hmd', Bool.false_eq_true, ite_false, Bool.false_and]
      cases lineLambda l with
      | error e => rfl
      | ok lv =>
        cases lineForce l with
        | error e => rfl
        | ok fv =>
          rw [ih b m hm]

/-- The truncated file carries `min K b` marker lines. -/
theorem countMarker_truncAtMD :
    ∀ (lines : List String) (b : ℕ), 1 ≤ b →
      countMarker "MD step No." (truncAtMD b lines)
        = min (countMarker "MD step No." lines) b := by
  intro lines
  induction lines with
  | nil => intro b hb; simp [truncAtMD, countMarker]
  | cons l rest ih =>
    intro b hb
    by_cases hmd : strContains l "MD step No." = true
    · by_cases hb1 : b ≤ 1
      · have hb' : b = 1 := by omega
        subst hb'
        rw [truncAtMD, if_pos hmd, if_pos (by omega)]
        rw [countMarker_cons, countMarker_cons, hmd]
        simp [countMarker] <;> omega
      · rw [truncAtMD, if_pos hmd, if_neg hb1]
        rw [countMarker_cons, countMarker_cons, hmd]
        rw [ih (b - 1) (by omega)]
        simp only [if_true, ite_true]
        omega
    · have hmd' : strContains l "MD step No." = false := Bool.eq_false_iff.mpr hmd
      rw [truncAtMD, if_neg (by simp [hmd'])]
      rw [countMarker_cons, countMarker_cons, hmd']
      rw [ih b hb]
      simp only [Bool.false_eq_true, if_false]
      omega

/-- A `b_m` line whose second token is missing or unparseable raises. -/
theorem lineLambda_error (l : String) (hbm : strContains l "b_m" = true)
    (hbad : ((pyTokens l).get? 1).bind pyFloat = none) : lineLambda l = .error () := by
  simp only [lineLambda, hbm, if_true]
  cases ht : (pyTokens l).get? 1 with
  | none => simp [ht]
  | some t =>
    rw [ht, Option.some_bind] at hbad
    simp [ht, hbad]

/-- A raising line aborts the whole scan, even after a successfully scanned
prefix. -/
theorem rsdGo_none_error_after (pre : List String) :
    ∀ (m : ℕ) (r : List ℚ × List ℚ × ℕ), rsdGo none m pre = .ok r →
      ∀ (l : String) (post : List String), lineLambda l = .error () →
        rsdGo none m (pre ++ l :: post) = .error () := by
  induction pre with
  | nil =>
    intro m r _ l post hl
    simp only [List.nil_append, rsdGo, hl]
  | cons p pre ih =>
    intro m r h l post hl
    cases hll : lineLambda p with
    | error e =>
      simp only [rsdGo, hll] at h
      exact absurd h (by simp)
    | ok lv =>
      cases hlf : lineForce p with
      | error e =>
        simp only [rsdGo, hll, hlf] at h
        exact absurd h (by simp)
      | ok fv =>
        cases hrec : rsdGo none (if strContains p "MD step No." = true then m + 1 else m) pre with
        | error e =>
          simp only [rsdGo, stopAt, Bool.and_false, Bool.false_eq_true, ite_false,
            hll, hlf, hrec] at h
          exact absurd h (by simp)
        | ok r' =>
          have hrest := ih _ r' hrec l post hl
          simp only [List.cons_append, rsdGo, stopAt, Bool.and_false, Bool.false_eq_true,
            ite_false, hll, hlf, List.append_eq, hrest]

/-! ### Claim C2 -/

/-- Claim C2 as stated is false: a REPORT file whose only line is a `b_m`
line with an unparseable second token has `K = 0` step-marker lines and
`M = 0` force-marker lines, yet `read_simulation_data` raises an uncaught
ValueError and returns no lists at all instead of the claimed empty force
list and zero step count. -/
theorem C2_counterexample :
    read_simulation_data ["b_m x"] none = .error ()
    ∧ countMarker "cc>" ["b_m x"] = 0
    ∧ countMarker "MD step No." ["b_m x"] = 0 := by
  refine ⟨by decide, by decide, by decide⟩

/-- Claim C2 (corrected): whenever the unbounded scan completes without an
uncaught exception, the returned force-sample list has length exactly the
number of `cc>` lines minus the number of `cc>` lines whose third token does
not parse as a float, and the step count is exactly the number of
`MD step No.` lines. -/
theorem C2_parser_sample_and_step_counts (lines : List String) (ls fs : List ℚ) (n : ℕ)
    (h : read_simulation_data lines none = .ok (ls, fs, n)) :
    fs.length = countMarker "cc>" lines - countBadCC lines
      ∧ n = countMarker "MD step No." lines := by
  obtain ⟨h1, h2⟩ := rsdGo_none_spec lines 0 ls fs n h
  exact ⟨h1, by omega⟩

/-- Witness for C2 on a file with two `cc>` lines, one of them unparseable,
and one step marker. -/
theorem C2_parser_sample_and_step_counts_witness :
    ([(2 : ℚ)].length = countMarker "cc>" ["cc> 1 2.0", "cc> 1 x", "MD step No. 5"]
        - countBadCC ["cc> 1 2.0", "cc> 1 x", "MD step No. 5"])
      ∧ (1 = countMarker "MD step No." ["cc> 1 2.0", "cc> 1 x", "MD step No. 5"]) :=
  C2_parser_sample_and_step_counts ["cc> 1 2.0", "cc> 1 x", "MD step No. 5"] [] [2] 1 (by
    simp +decide [read_simulation_data, rsdGo, lineLambda, lineForce, stopAt, strContains,
      pyTokens, tokensAux, pyFloat, pyFloatCore, pyStrip, parseSign, takeDigits, parseExp,
      digitsToNat, digitVal] <;> norm_num)

/-! ### Claim C8 -/

/-- Claim C8 as stated is false at the bound `B = 0`: the counter check runs
only after the increment, so the scan of a one-step file stops with step
count 1, not `min(K, 0) = 0`. -/
theorem C8_counterexample :
    read_simulation_data ["MD step No. 1"] (some 0) = .ok ([], [], 1)
    ∧ min (countMarker "MD step No." ["MD step No. 1"]) 0 = 0
    ∧ (1 : ℕ) ≠ 0 := by
  refine ⟨by decide, by decide, by decide⟩

/-- Claim C8 (corrected): for every positive bound `B` the bounded scan
behaves exactly like the unbounded scan of the file truncated after the
`B`-th `MD step No.` line — so nothing after that line is read — and a
successful bounded scan returns step count `min(K, B)`. -/
theorem C8_step_bound_truncates (lines : List String) (b : ℕ) (hb : 1 ≤ b) :
    read_simulation_data lines (some b) = read_simulation_data (truncAtMD b lines) none
    ∧ ∀ ls fs n, read_simulation_data lines (some b) = .ok (ls, fs, n) →
        n = min (countMarker "MD step No." lines) b := by
  have heq : read_simulation_data lines (some b)
      = read_simulation_data (truncAtMD b lines) none := by
    rw [read_simulation_data, read_simulation_data,
      rsdGo_some_eq_trunc lines b 0 (by omega), Nat.sub_zero]
  refine ⟨heq, ?_⟩
  intro ls fs n h
  rw [heq] at h
  obtain ⟨-, h2⟩ := rsdGo_none_spec _ 0 ls fs n h
  rw [h2, countMarker_truncAtMD lines b hb]
  omega

/-- Witness for C8 at bound 1 on a two-line file. -/
theorem C8_step_bound_truncates_witness :
    read_simulation_data ["MD step No. 1", "b_m 2.0"] (some 1)
      = read_simulation_data (truncAtMD 1 ["MD step No. 1", "b_m 2.0"]) none :=
  (C8_step_bound_truncates ["MD step No. 1", "b_m 2.0"] 1 (by decide)).1

/-! ### Claim C9 -/

/-- Claim C9 (confirmed): a `b_m` line whose second whitespace token is
missing or does not parse as a float makes `read_simulation_data` raise an
uncaught exception and return nothing at all, regardless of what was parsed
before; the drop-and-continue policy applies only to the `cc>` force token. -/
theorem C9_bm_parse_failure_is_fatal (pre post : List String) (l : String)
    (r : List ℚ × List ℚ × ℕ) (hok : read_simulation_data pre none = .ok r)
    (hbm : strContains l "b_m" = true)
    (hbad : ((pyTokens l).get? 1).bind pyFloat = none) :
    read_simulation_data (pre ++ l :: post) none = .error () :=
  rsdGo_none_error_after pre 0 r hok l post (lineLambda_error l hbm hbad)

/-- Witness for C9: a good `cc>` line before, a bad `b_m` line, more content
after. -/
theorem C9_bm_parse_failure_is_fatal_witness :
    read_simulation_data (["cc> 1 2.0"] ++ "b_m x" :: ["b_m 9.9"]) none = .error () :=
  C9_bm_parse_failure_is_fatal ["cc> 1 2.0"] ["b_m 9.9"] "b_m x" ([], [2], 0)
    (by
      simp +decide [read_simulation_data, rsdGo, lineLambda, lineForce, stopAt, strContains,
        pyTokens, tokensAux, pyFloat, pyFloatCore, pyStrip, parseSign, takeDigits, parseExp,
        digitsToNat, digitVal] <;> norm_num)
    (by decide) (by decide)

/-! ### Claim C3 -/

/-- The interval list of the cumulative loop is the multiples of 500 up to
the series length. -/
theorem pyRange_500 (len : ℕ) :
    pyRange 500 (len + 1) 500 = (List.range (len / 500)).map (fun j => 500 * (j + 1)) := by
  rw [pyRange]
  have hc : (len + 1 - 500 + 500 - 1) / 500 = len / 500 := by omega
  rw [hc]
  have hf : (fun j : ℕ => 500 + j * 500) = (fun j : ℕ => 500 * (j + 1)) := by
    funext j
    ring
  rw [hf]

/-- Claim C3 (confirmed): `cumulative_force_analysis` returns the interval
list of exactly the positive multiples of 500 that are at most the series
length (hence three empty lists for series shorter than 500, since no such
multiple exists, and no point for a tail remainder past the last complete
multiple), with the mean and standard deviation of the length-`i` prefix at
each interval `i`. -/
theorem C3_cumulative_intervals (sq : ℚ → ℚ) (fv : List ℚ) :
    cumulative_force_analysis sq fv
      = ((List.range (fv.length / 500)).map (fun j => 500 * (j + 1)),
         ((List.range (fv.length / 500)).map (fun j => 500 * (j + 1))).map
           (fun i => npMean (fv.take i)),
         ((List.range (fv.length / 500)).map (fun j => 500 * (j + 1))).map
           (fun i => npStd sq (fv.take i)))
    ∧ ∀ i, (i ∈ (cumulative_force_analysis sq fv).1
        ↔ (i % 500 = 0 ∧ 1 ≤ i ∧ i ≤ fv.length)) := by
  have hmain : cumulative_force_analysis sq fv
      = ((List.range (fv.length / 500)).map (fun j => 500 * (j + 1)),
         ((List.range (fv.length / 500)).map (fun j => 500 * (j + 1))).map
           (fun i => npMean (fv.take i)),
         ((List.range (fv.length / 500)).map (fun j => 500 * (j + 1))).map
           (fun i => npStd sq (fv.take i))) := by
    rw [cumulative_force_analysis]
    by_cases h : 500 ≤ fv.length
    · rw [if_pos h, pyRange_500]
    · rw [if_neg h]
      have : fv.length / 500 = 0 := Nat.div_eq_of_lt (by omega)
      rw [this]
      simp
  refine ⟨hmain, ?_⟩
  intro i
  rw [hmain]
  simp only [List.mem_map, List.mem_range]
  constructor
  · rintro ⟨j, hj, rfl⟩
    refine ⟨by simp [Nat.mul_mod_right], by omega, ?_⟩
    have h1 : (j + 1) * 500 ≤ fv.length := by
      rw [← Nat.le_div_iff_mul_le (by omega : 0 < 500)]
      omega
    omega
  · rintro ⟨hmod, hpos, hle⟩
    obtain ⟨k, rfl⟩ : ∃ k, i = 500 * k := ⟨i / 500, by omega⟩
    have hk1 : 1 ≤ k := by omega
    have hk2 : k ≤ fv.length / 500 := by
      rw [Nat.le_div_iff_mul_le (by omega : 0 < 500)]
      omega
    exact ⟨k - 1, by omega, by omega⟩

/-! ### Claim C4 -/

/-- With no step target, the cumulative-row loop of `read_force_stats` never
modifies the dictionary. -/
theorem rfsLoop_none_ok :
    ∀ (ls : List String) (st r : ForceStats), rfsLoop none st ls = .ok r → r = st := by
  intro ls
  induction ls with
  | nil =>
    intro st r h
    simp only [rfsLoop, Except.ok.injEq] at h
    exact h.symm
  | cons l rest ih =>
    intro st r h
    by_cases hp : (pyTokens l).length = 3
    · simp only [rfsLoop, hp, if_true] at h
      cases hk : pyInt ((pyTokens l).getD 0 "") with
      | none =>
        rw [hk] at h
        exact absurd h (by simp)
      | some k =>
        rw [hk] at h
        exact ih st r h
    · simp only [rfsLoop, hp, if_false] at h
      exact ih st r h

/-- Claim C4 as stated is false: with global mean force 1, line 3 of the
report is `Mean Force: 1.00` — the mean itself at two decimals — while the
negation would print `Mean Force: -1.00`. -/
theorem C4_counterexample :
    (reportLines 0 1 1 1 0 500 [] [] []).get? 2 = some "Mean Force: 1.00"
    ∧ "Mean Force: " ++ pyFormat 2 (-(1 : ℚ)) = "Mean Force: -1.00"
    ∧ ("Mean Force: 1.00" : String) ≠ "Mean Force: -1.00" := by
  have h1 : pyFormat 2 (1 : ℚ) = "1.00" := by
    norm_num [pyFormat, roundHalfEven, padZeros]
    decide
  have h2 : pyFormat 2 (-1 : ℚ) = "-1.00" := by
    norm_num [pyFormat, roundHalfEven, padZeros]
    decide
  refine ⟨?_, ?_, by decide⟩
  · simp [reportLines, h1]
  · rw [h2]
    decide

/-- Claim C4 (corrected): the Report Writer serializes the computed global
mean force itself (not its negation) to two decimals on line 3, together
with the standard deviation, the step count, and the right-aligned
cumulative table; the sign convention is applied later by the PMF reader,
whose `read_force_stats` returns minus the rounded parsed mean. -/
theorem C4_report_writer_lines (ci nc : ℕ) (cv0 mf sd : ℚ) (steps : ℕ)
    (ivals : List ℕ) (means stds : List ℚ) :
    (reportLines ci nc cv0 mf sd steps ivals means stds).get? 2
        = some ("Mean Force: " ++ pyFormat 2 mf)
    ∧ (reportLines ci nc cv0 mf sd steps ivals means stds).get? 3
        = some ("Standard Deviation: " ++ pyFormat 2 sd)
    ∧ (reportLines ci nc cv0 mf sd steps ivals means stds).get? 4
        = some ("MD steps: " ++ toString steps)
    ∧ (reportLines ci nc cv0 mf sd steps ivals means stds).get? 6
        = some (rjust 10 "Interval" ++ rjust 20 "Cumulative Mean" ++ rjust 20 "Cumulative Std")
    ∧ (reportLines ci nc cv0 mf sd steps ivals means stds).drop 7
        = (ivals.zip (means.zip stds)).map (fun p =>
            rjust 10 (toString p.1) ++ rjust 20 (pyFormat 2 p.2.1) ++ rjust 20 (pyFormat 2 p.2.2))
    ∧ ∀ (lines : List String) (v : ℚ) (st : ForceStats), 2 < lines.length →
        parseAfterColon (lines.getD 2 "") = some v →
        read_force_stats lines none = .ok st →
        st.meanForce = some (-(npAround2 v)) := by
  refine ⟨by simp [reportLines], by simp [reportLines], by simp [reportLines],
    by simp [reportLines], by simp [reportLines], ?_⟩
  intro lines v st hlen hv hok
  rw [read_force_stats, if_pos hlen] at hok
  cases hcv : parseAfterColon (lines.getD 1 "") with
  | none =>
    rw [hcv] at hok
    exact absurd hok (by simp)
  | some cv =>
    rw [hcv, hv] at hok
    cases hsd : parseAfterColon (lines.getD 3 "") with
    | none =>
      rw [hsd] at hok
      exact absurd hok (by simp)
    | some sdv =>
      rw [hsd] at hok
      cases hmd : parseAfterColonInt (lines.getD 4 "") with
      | none =>
        rw [hmd] at hok
        exact absurd hok (by simp)
      | some mdv =>
        rw [hmd] at hok
        have := rfsLoop_none_ok (lines.drop 6) _ st hok
        rw [this]

/-- A well-formed `force_stats_report.txt` content used as concrete test
input (CV 1.06, mean force 1.23, standard deviation 0.45, 1000 steps, one
cumulative row). -/
def sampleReport : List String :=
  ["Integrating over Reaction Coordinate Index: 0, with a total of 1 constraints",
   "CV: 1.06",
   "Mean Force: 1.23",
   "Standard Deviation: 0.45",
   "MD steps: 1000",
   "Cumulative Analysis Results:",
   "  Interval     Cumulative Mean      Cumulative Std",
   "       500                1.20                0.40"]

/-- Witness for the reader part of C4: on the sample report the PMF reader
returns minus the rounded mean force written by the writer. -/
theorem C4_report_writer_lines_witness :
    (⟨some (53/50), some (-(123/100)), some (9/20), some 1000⟩ : ForceStats).meanForce
      = some (-(npAround2 (123/100))) :=
  (C4_report_writer_lines 0 1 1 1 0 500 [] [] []).2.2.2.2.2 sampleReport (123/100)
    ⟨some (53/50), some (-(123/100)), some (9/20), some 1000⟩
    (by decide)
    (by
      simp +decide [sampleReport, parseAfterColon, pySplitOn, splitSepAux, pyStrip, pyFloat,
        pyFloatCore, parseSign, takeDigits, parseExp, digitsToNat, digitVal] <;> norm_num)
    (by
      simp +decide [sampleReport, read_force_stats, rfsLoop, parseAfterColon, parseAfterColonInt,
        pySplitOn, splitSepAux, pyStrip, pyFloat, pyFloatCore, pyInt, parseSign, takeDigits,
        parseExp, digitsToNat, digitVal, pyTokens, tokensAux, npAround2, ForceStats.empty]
      norm_num [roundHalfEven])

/-! ### Claim C5 -/

/-- Claim C5 as stated is false: a malformed report of two lines makes the
scan raise an uncaught KeyError and abort — the well-formed report listed
after it is never reached — whereas scanning the well-formed report alone
produces its row. -/
theorem C5_counterexample :
    pmfScan [some ["a", "b"], some sampleReport] none = .error ()
    ∧ pmfScan [some sampleReport] none
        = .ok ([53/50], [-(123/100)], [9/20], [1000]) := by
  have hrfs : read_force_stats sampleReport none
      = .ok ⟨some (53/50), some (-(123/100)), some (9/20), some 1000⟩ := by
    simp +decide [sampleReport, read_force_stats, rfsLoop, parseAfterColon, parseAfterColonInt,
      pySplitOn, splitSepAux, pyStrip, pyFloat, pyFloatCore, pyInt, parseSign, takeDigits,
      parseExp, digitsToNat, digitVal, pyTokens, tokensAux, npAround2, ForceStats.empty]
    norm_num [roundHalfEven]
  constructor
  · have hbad : read_force_stats ["a", "b"] none = .ok ForceStats.empty := by
      rw [read_force_stats, if_neg (by simp)]
    simp [pmfScan, hbad, ForceStats.empty, getKey]
  · simp [pmfScan, hrfs, getKey, getKeyInt]

/-- Claim C5 (corrected): a directory with no report file is skipped and the
scan continues, but a directory with a malformed report (at most two lines)
raises an uncaught KeyError that aborts the whole scan — no row for it and
no rows for any later directory. -/
theorem C5_missing_skipped_malformed_aborts (folders : List (Option (List String)))
    (target : Option ℤ) (bad : List String) (hbad : bad.length ≤ 2) :
    pmfScan (none :: folders) target = pmfScan folders target
    ∧ pmfScan (some bad :: folders) target = .error () := by
  constructor
  · rfl
  · have hrfs : read_force_stats bad target = .ok ForceStats.empty := by
      rw [read_force_stats, if_neg (by omega)]
    simp [pmfScan, hrfs, ForceStats.empty, getKey]

/-- Witness for C5: an empty remaining scan, no target, a two-line report. -/
theorem C5_missing_skipped_malformed_aborts_witness :
    pmfScan [none] none = pmfScan [] none ∧ pmfScan [some ["a", "b"]] none = .error () :=
  C5_missing_skipped_malformed_aborts [] none ["a", "b"] (by decide)

/-! ### Claim C7 -/

/-- Claim C7 (confirmed): whenever both the `+std` and `-std` shifted curves
yield an area under the same zero-crossing-and-trapezoid procedure
(`calculate_area`), the reported uncertainty is half the absolute difference
of the two areas. -/
theorem C7_activation_barrier_error (sq : ℚ → ℚ) (x y sd : List ℚ) (au al : ℚ)
    (hu : (calculate_area sq x (listAdd y sd)).1 = some au)
    (hl : (calculate_area sq x (listSub y sd)).1 = some al) :
    activationBarrierError sq x y sd = some (|au - al| / 2) := by
  rw [activationBarrierError, hu, hl]

/-- Witness for C7 on a force curve with two genuine sign changes and zero
standard deviation. -/
theorem C7_activation_barrier_error_witness :
    activationBarrierError (fun q => q) [0, 1, 2, 3] [-1, 1, 1, -1] [0, 0, 0, 0]
      = some (|(1 : ℚ) - 1| / 2) :=
  C7_activation_barrier_error (fun q => q) [0, 1, 2, 3] [-1, 1, 1, -1] [0, 0, 0, 0] 1 1
    (by
      norm_num [listAdd, calculate_area, zeroCrossings, zeroCrossingsAux, npSign,
        directAreaRoots, interpolateZeroCrossing, npArgmin, pySliceRange, npTrapz,
        List.insertionSort, List.orderedInsert, abs_of_nonneg, abs_of_nonpos])
    (by
      norm_num [listSub, calculate_area, zeroCrossings, zeroCrossingsAux, npSign,
        directAreaRoots, interpolateZeroCrossing, npArgmin, pySliceRange, npTrapz,
        List.insertionSort, List.orderedInsert, abs_of_nonneg, abs_of_nonpos])

/-! ### Claim C10 -/

/-- Claim C10 (confirmed): when the force curve has at least two sign
changes, `calculate_area` integrates between the first two sign-change
positions of `np.where(np.diff(np.sign(y)))[0]` — all later crossings are
ignored and the quadratic fit plays no part (the result is the same for every
square-root function, i.e. independent of the fallback machinery). -/
theorem C10_first_two_sign_changes (sq : ℚ → ℚ) (x y : List ℚ) (s e : ℕ) (rest : List ℕ)
    (h : zeroCrossings y = s :: e :: rest) :
    calculate_area sq x y = (some (directAreaRoots x y s e).1, (directAreaRoots x y s e).2) := by
  have hsorted : List.Sorted (· ≤ ·) (zeroCrossings y) := zeroCrossings_sorted y
  rw [h] at hsorted
  simp only [calculate_area, h]
  rw [if_neg (by simp), List.Sorted.insertionSort_eq hsorted]

/-- Witness for C10 on a curve with three sign changes: the integration uses
crossings 0 and 1 and ignores the third. -/
theorem C10_first_two_sign_changes_witness :
    calculate_area (fun q => q) [0, 1, 2, 3] [-1, 1, -1, 1]
      = (some (directAreaRoots [0, 1, 2, 3] [-1, 1, -1, 1] 0 1).1,
         (directAreaRoots [0, 1, 2, 3] [-1, 1, -1, 1] 0 1).2) :=
  C10_first_two_sign_changes (fun q => q) [0, 1, 2, 3] [-1, 1, -1, 1] 0 1 [2]
    (by simp +decide [zeroCrossings, zeroCrossingsAux, npSign])

/-! ### Claim C6 -/

/-- `np.argmin` of a constant array is its first index. -/
theorem npArgmin_replicate (n : ℕ) (c : ℚ) : npArgmin (List.replicate n c) = 0 := by
  have haux : ∀ (k i : ℕ),
      (List.replicate k c).foldl
        (fun acc v => if v < acc.2.1 then (acc.2.2, v, acc.2.2 + 1)
          else (acc.1, acc.2.1, acc.2.2 + 1))
        ((0 : ℕ), c, i) = (0, c, i + k) := by
    intro k
    induction k with
    | zero => intro i; simp
    | succ k ih =>
      intro i
      rw [List.replicate_succ, List.foldl_cons, if_neg (lt_irrefl c)]
      rw [ih (i + 1)]
      have hadd : i + 1 + k = i + (k + 1) := by omega
      rw [hadd]
  cases n with
  | zero => rfl
  | succ k =>
    rw [npArgmin]
    have hh : (List.replicate (k + 1) c).headI = c := by
      rw [List.replicate_succ]
      rfl
    rw [hh, haux (k + 1) 0]

/-- A degenerate `np.linspace` between equal endpoints is constant. -/
theorem npLinspace_self (a : ℚ) (num : ℕ) : npLinspace a a num = List.replicate num a := by
  rw [npLinspace]
  have hstep : (List.range num).map (fun i : ℕ => a + (a - a) * i / ((num : ℚ) - 1))
      = (List.range num).map (fun _ => a) := by
    refine List.map_congr_left ?_
    intro i _
    ring
  rw [hstep, List.map_const', List.length_range]

/-- The fallback integration over a degenerate pair of equal roots (the real
parts of a complex-conjugate pair) evaluates on a constant grid and yields
the area zero. -/
theorem fallbackArea_diag (coeffs : List ℚ) (r : ℚ) : fallbackArea coeffs r r = 0 := by
  have hx : npLinspace r r 500 = List.replicate 500 r := npLinspace_self r 500
  rw [fallbackArea, min_self, max_self, hx, List.map_replicate, List.map_replicate,
    npArgmin_replicate]
  rw [pySliceRange, pySliceRange, List.drop_zero, List.drop_zero]
  rw [show (0 + 1 - 0 : ℕ) = 1 from rfl, List.take_replicate, List.take_replicate]
  rw [show min 1 500 = 1 from rfl]
  simp [npTrapz]

/-- With fewer than two sign changes and fewer than two fallback roots,
`calculate_area` yields no area and returns the root list of the fit. -/
theorem calculate_area_none (sq : ℚ → ℚ) (x y : List ℚ)
    (h1 : (zeroCrossings y).length < 2) (h2 : (fallbackRoots sq x y).length < 2) :
    calculate_area sq x y = (none, fallbackRoots sq x y) := by
  rcases hfit : npPolyfit2 x y with ⟨a, b, c⟩
  simp only [calculate_area, hfit, if_pos h1]
  cases hroots : fallbackRoots sq x y with
  | nil => rfl
  | cons r0 tail =>
    cases tail with
    | nil => rfl
    | cons r1 tail' =>
      rw [hroots] at h2
      exact absurd h2 (by simp)

/-- Claim C6 as stated is false: on the curve `y = [2, 1, 2]` over
`x = [0, 1, 2]` there are no sign changes and the fitted quadratic
`x² − 2x + 2` has negative discriminant, hence fewer than two real roots —
yet `np.roots(p).real` yields the real parts `[1, 1]` of the complex pair,
`calculate_area` returns the numeric area 0, and the pipeline prints a
numeric barrier line instead of the insufficient-data message. -/
theorem C6_counterexample :
    (zeroCrossings [2, 1, 2]).length < 2
    ∧ npPolyfit2 [0, 1, 2] [2, 1, 2] = (1, -2, 2)
    ∧ ((-2 : ℚ)) ^ 2 - 4 * 1 * 2 < 0
    ∧ calculate_area (fun q => q) [0, 1, 2] [2, 1, 2] = (some 0, [1, 1])
    ∧ resultsString (fun q => q) [0, 1, 2] [2, 1, 2] [0, 0, 0]
        = .ok ("Activation Barrier (Area under the curve): 0.00 ± 0.00 eV\n"
            ++ "Equilibrium Bond Distances: Initial State = 1.000 Å, Transition State = 1.000 Å\n") := by
  have hzc : zeroCrossings [2, 1, 2] = [] := by
    simp +decide [zeroCrossings, zeroCrossingsAux, npSign]
  have hfit : npPolyfit2 [0, 1, 2] [2, 1, 2] = (1, -2, 2) := by
    norm_num [npPolyfit2, det3]
  have hroots : fallbackRoots (fun q => q) [0, 1, 2] [2, 1, 2] = [1, 1] := by
    simp only [fallbackRoots, hfit]
    norm_num [npRootsReal, stripLeadingZeros, List.insertionSort, List.orderedInsert]
  have hca : calculate_area (fun q => q) [0, 1, 2] [2, 1, 2] = (some 0, [1, 1]) := by
    simp only [calculate_area, hzc, hfit, hroots, List.length_nil]
    rw [if_pos (by norm_num)]
    rw [fallbackArea_diag]
  have hadd : listAdd [2, 1, 2] [0, 0, 0] = [2, 1, 2] := by norm_num [listAdd]
  have hsub : listSub [2, 1, 2] [0, 0, 0] = [2, 1, 2] := by norm_num [listSub]
  have hf2 : pyFormat 2 (0 : ℚ) = "0.00" := by
    norm_num [pyFormat, roundHalfEven, padZeros] <;> decide
  have hf3 : pyFormat 3 (1 : ℚ) = "1.000" := by
    norm_num [pyFormat, roundHalfEven, padZeros] <;> decide
  refine ⟨by rw [hzc]; norm_num, hfit, by norm_num, hca, ?_⟩
  simp only [resultsString, hadd, hsub, hca]
  norm_num [hf2, hf3]
  decide

/-- Claim C6 (corrected): the pipeline emits the insufficient-data message
(and no numeric area) only when, for the unshifted and for both std-shifted
curves, there are fewer than two sign changes and the fitted-polynomial root
list that the code builds has fewer than two entries — which happens when the
fit is degenerate (fewer than two coefficients survive), not merely when the
quadratic has fewer than two real roots: a quadratic with complex roots still
produces two real parts and a numeric area. -/
theorem C6_insufficient_data_message (sq : ℚ → ℚ) (x y sd : List ℚ)
    (h1 : (zeroCrossings y).length < 2)
    (h2 : (fallbackRoots sq x y).length < 2)
    (h3 : (zeroCrossings (listAdd y sd)).length < 2)
    (h4 : (fallbackRoots sq x (listAdd y sd)).length < 2)
    (h5 : (zeroCrossings (listSub y sd)).length < 2)
    (h6 : (fallbackRoots sq x (listSub y sd)).length < 2) :
    resultsString sq x y sd
      = .ok "Not enough zero crossings found to compute the area and its error." := by
  have hy := calculate_area_none sq x y h1 h2
  have hu := calculate_area_none sq x (listAdd y sd) h3 h4
  have hl := calculate_area_none sq x (listSub y sd) h5 h6
  simp only [resultsString, hy, hu, hl]
  rw [if_neg (by omega)]

/-- Witness for C6 on a constant force curve, whose quadratic fit is the
constant polynomial with no roots. -/
theorem C6_insufficient_data_message_witness :
    resultsString (fun q => q) [0, 1, 2] [1, 1, 1] [0, 0, 0]
      = .ok "Not enough zero crossings found to compute the area and its error." := by
  have hadd : listAdd [1, 1, 1] [0, 0, 0] = [1, 1, 1] := by norm_num [listAdd]
  have hsub : listSub [1, 1, 1] [0, 0, 0] = [1, 1, 1] := by norm_num [listSub]
  have hzc : (zeroCrossings [1, 1, 1]).length < 2 := by
    simp +decide [zeroCrossings, zeroCrossingsAux, npSign]
  have hfit : npPolyfit2 [0, 1, 2] [1, 1, 1] = (0, 0, 1) := by
    norm_num [npPolyfit2, det3]
  have hroots : (fallbackRoots (fun q => q) [0, 1, 2] [1, 1, 1]).length < 2 := by
    simp only [fallbackRoots, hfit]
    norm_num [npRootsReal, stripLeadingZeros, List.insertionSort, List.orderedInsert]
  exact C6_insufficient_data_message (fun q => q) [0, 1, 2] [1, 1, 1] [0, 0, 0]
    hzc hroots (by rw [hadd]; exact hzc) (by rw [hadd]; exact hroots)
    (by rw [hsub]; exact hzc) (by rw [hsub]; exact hroots)
